import Mathlib

/-!
# Verification of the jesse backtest simulation engine

A shallow embedding of `src/jesse/modes/backtest_mode/__init__.py` (the
simulation driver, candle matching engine, daily-balance accounting and
candle loading/validation), together with models of the external
collaborators it calls (candle store, order book, position ledger,
candle utilities), taken from the specification where the collaborator's
code is not part of the extracted sources.

Conventions:
* prices, quantities and balances are rationals (the source uses IEEE-754
  doubles; rational arithmetic is the exact idealization of the formulas);
* timestamps are integers (UTC milliseconds);
* a numpy 1m candle row `[timestamp, open, close, high, low, volume]`
  becomes the `Candle` structure below (note the source's index 2 is the
  close, index 3 the high, index 4 the low);
* Python dictionaries keyed by strings become association lists in
  insertion order;
* exceptions become `Except` values;
* the matching engine's `while True` loop is run on explicit fuel; the
  fuel passed by the wrapper is (total order-tree measure + 1), which is
  an upper bound on the number of iterations because every iteration
  either exits or executes one active order.
-/

namespace Jesse

/-- One OHLCV candle.  Embeds the numpy row
`[timestamp, open, close, high, low, volume]` used throughout
`backtest_mode/__init__.py`. -/
structure Candle where
  timestamp : Int
  openP : ℚ
  close : ℚ
  high : ℚ
  low : ℚ
  volume : ℚ
  deriving DecidableEq, Repr

/-- Stand-in row used to totalize out-of-range list indexing (the Python
source would raise `IndexError` there; no theorem below depends on this
default). -/
def dummyCandle : Candle := ⟨0, 0, 0, 0, 0, 0⟩

instance : Inhabited Candle := ⟨dummyCandle⟩

/-- Modelled from the spec: supported timeframes and their minute counts
(§4.2): `1m=1, 3m=3, 5m=5, 15m=15, 30m=30, 1h=60, 2h=120, 3h=180, 4h=240,
6h=360, 8h=480, 1d=1440`.  (`jh.timeframe_to_one_minutes` is not among the
extracted sources.)  Unsupported strings map to 0, where the Python helper
would raise. -/
def timeframe_to_one_minutes (tf : String) : Nat :=
  if tf = "1m" then 1
  else if tf = "3m" then 3
  else if tf = "5m" then 5
  else if tf = "15m" then 15
  else if tf = "30m" then 30
  else if tf = "1h" then 60
  else if tf = "2h" then 120
  else if tf = "3h" then 180
  else if tf = "4h" then 240
  else if tf = "6h" then 360
  else if tf = "8h" then 480
  else if tf = "1d" then 1440
  else 0

/-- Modelled from the spec: `candle_includes_price` (§4.4 step 2) —
the order price lies inside the candle, inclusive of `high` and `low`
(`open` and `close` are not required to bracket it).
(`jesse.services.candle.candle_includes_price` is not among the extracted
sources.) -/
def candle_includes_price (c : Candle) (price : ℚ) : Bool :=
  decide (c.low ≤ price) && decide (price ≤ c.high)

/-- Modelled from the spec: `split_candle` (§4.4 step 3) — split a candle
at `price` into `(storable, remainder)`: the storable piece keeps the
original open and closes at `price`, the remainder opens at `price` and
keeps the original close; the candle's extreme is assigned to the side it
naturally belongs to on the assumed `open→extreme→price→extreme→close`
path, ties broken by `sign(close−open)` (for a bullish candle the low goes
with the storable piece and the high with the remainder, mirrored for a
bearish candle; this matches scenario S2 of the spec).  Volume is carried
on both pieces as in the source's array copy.
(`jesse.services.candle.split_candle` is not among the extracted
sources.) -/
def split_candle (c : Candle) (price : ℚ) : Candle × Candle :=
  if c.openP ≤ c.close then
    -- bullish: assumed path open → low → high → close
    (⟨c.timestamp, c.openP, price, max c.openP price, min c.low price, c.volume⟩,
     ⟨c.timestamp, price, c.close, max c.high price, min price c.close, c.volume⟩)
  else
    -- bearish: assumed path open → high → low → close
    (⟨c.timestamp, c.openP, price, max c.high price, min c.openP price, c.volume⟩,
     ⟨c.timestamp, price, c.close, max price c.close, min c.low price, c.volume⟩)

/-- Modelled from the spec: `generate_candle_from_one_minutes` (§4.2) — the
aggregated candle over a window of 1m candles has the open of the first,
the close of the last, the max of the highs, the min of the lows, the sum
of the volumes and the timestamp of the first.
(`jesse.services.candle.generate_candle_from_one_minutes` is not among the
extracted sources; the `timeframe` argument does not influence the OHLCV
fields.)  The empty window returns the dummy row (the source is never
called on an empty slice). -/
def generate_candle_from_one_minutes (_tf : String) (window : List Candle) : Candle :=
  match window with
  | [] => dummyCandle
  | first :: rest =>
    { timestamp := first.timestamp
      openP := first.openP
      close := (rest.getLast?.getD first).close
      high := rest.foldl (fun acc c => max acc c.high) first.high
      low := rest.foldl (fun acc c => min acc c.low) first.low
      volume := first.volume + (rest.map (·.volume)).sum }

/-- Modelled from the spec: `CandleStore.add_candle` tail behaviour (§4.1) —
append, except that a candle carrying the same timestamp as the current
tail overwrites the tail (used by the matching engine when it writes
successive split pieces of the same real minute). -/
def addCandleToSeries (series : List Candle) (c : Candle) : List Candle :=
  match series.getLast? with
  | none => [c]
  | some tail =>
    if tail.timestamp = c.timestamp then series.dropLast ++ [c] else series ++ [c]

/-! ## Orders, positions, exchanges, trades (data model §3) -/

/-- Order side (§3). -/
inductive Side where
  | buy
  | sell
  deriving DecidableEq, Repr

/-- Order type (§3). -/
inductive OrderType where
  | market
  | limit
  | stop
  deriving DecidableEq, Repr

/-- Order lifecycle status (§3). -/
inductive OrderStatus where
  | active
  | executed
  | canceled
  deriving DecidableEq, Repr

/-- A pending or settled order (§3).  `spawn` models the orders pushed by
the strategy's fill callback when this order executes (§4.4 step 4:
"possibly push a new order on fill callback"); real strategies are
arbitrary code, so the orders a fill creates are carried as data. -/
inductive Order where
  | mk (id : Nat) (exchange symbol : String) (side : Side) (type : OrderType)
      (qty price : ℚ) (status : OrderStatus) (spawn : List Order)
  deriving Repr

namespace Order

def id : Order → Nat | mk i _ _ _ _ _ _ _ _ => i
def exchange : Order → String | mk _ e _ _ _ _ _ _ _ => e
def symbol : Order → String | mk _ _ s _ _ _ _ _ _ => s
def side : Order → Side | mk _ _ _ s _ _ _ _ _ => s
def type : Order → OrderType | mk _ _ _ _ t _ _ _ _ => t
def qty : Order → ℚ | mk _ _ _ _ _ q _ _ _ => q
def price : Order → ℚ | mk _ _ _ _ _ _ p _ _ => p
def status : Order → OrderStatus | mk _ _ _ _ _ _ _ st _ => st
def spawn : Order → List Order | mk _ _ _ _ _ _ _ _ sp => sp

/-- `Order.is_active` of the source: the order is still pending. -/
def is_active (o : Order) : Bool := o.status = OrderStatus.active

/-- Copy of the order with a new status (the fill transition). -/
def withStatus (o : Order) (st : OrderStatus) : Order :=
  match o with
  | mk i e s sd t q p _ sp => mk i e s sd t q p st sp

/-- Measure of an order's fill-callback tree: executing the order removes
its own node from the set of active orders and adds its spawned children,
so the total measure over a book strictly decreases with every fill.  Used
as loop fuel for the matching engine. -/
def measure : Order → Nat
  | mk _ _ _ _ _ _ _ _ sp => 1 + measureList sp
where
  measureList : List Order → Nat
  | [] => 0
  | o :: rest => measure o + measureList rest

end Order

/-- A simulated exchange account (§3 `ExchangeAccount`). -/
structure Exchange where
  name : String
  balance : ℚ
  fee_rate : ℚ
  deriving DecidableEq, Repr

/-- A per-(exchange, symbol) position (§3). -/
structure Position where
  exchange_name : String
  symbol : String
  qty : ℚ
  entry_price : ℚ
  current_price : ℚ
  deriving DecidableEq, Repr

namespace Position

/-- Modelled from the spec: `is_open ⇔ qty ≠ 0` (§3). -/
def is_open (p : Position) : Bool := decide (p.qty ≠ 0)

/-- Modelled from the spec: `value = |qty| × current_price` (§3). -/
def value (p : Position) : ℚ := |p.qty| * p.current_price

end Position

/-- A closed round-trip trade record (§3). -/
structure Trade where
  exchange : String
  symbol : String
  isLong : Bool
  opened_at : Int
  closed_at : Int
  entry_price : ℚ
  exit_price : ℚ
  qty : ℚ
  pnl : ℚ
  deriving DecidableEq, Repr

/-- The mutable simulation store (the parts of the global `store` singleton
that the extracted source reads and writes): exchange accounts, positions,
the order book keyed by `(exchange, symbol)`, the candle series keyed by
`(exchange, symbol, timeframe)`, the completed-trades list, and the
simulated clock `store.app.time`. -/
structure Store where
  exchanges : List Exchange
  positions : List Position
  ordersStorage : List ((String × String) × List Order)
  candlesStorage : List ((String × String × String) × List Candle)
  trades : List Trade
  time : Int
  deriving Repr

/-- Read the value held for a key in an association list, with a default
for absent keys (Python-dict read). -/
def alistGet {κ β : Type} [DecidableEq κ] (l : List (κ × β)) (k : κ) (d : β) : β :=
  ((l.find? (fun e => e.1 = k)).map (·.2)).getD d

/-- Update the value held for a key in an association list in place; a key
not yet present is appended at the end with `f d` (Python-dict write,
insertion order preserved). -/
def alistUpdate {κ β : Type} [DecidableEq κ] (l : List (κ × β)) (k : κ)
    (f : β → β) (d : β) : List (κ × β) :=
  if (l.find? (fun e => e.1 = k)).isSome then
    l.map (fun e => if e.1 = k then (e.1, f e.2) else e)
  else l ++ [(k, f d)]

namespace Store

/-- Modelled from the spec: `get_orders(exchange, symbol)` (§4.3) returns
the book's live order sequence for the key, in insertion order (empty when
the key has no entry yet). -/
def get_orders (s : Store) (exchange symbol : String) : List Order :=
  alistGet s.ordersStorage (exchange, symbol) []

/-- Update (or create) the order list held for a key. -/
def updateOrders (s : Store) (exchange symbol : String)
    (f : List Order → List Order) : Store :=
  { s with ordersStorage := alistUpdate s.ordersStorage (exchange, symbol) f [] }

/-- The stored candle series for `(exchange, symbol, timeframe)`. -/
def getSeries (s : Store) (exchange symbol tf : String) : List Candle :=
  alistGet s.candlesStorage (exchange, symbol, tf) []

/-- `store.candles.add_candle(candle, exchange, symbol, timeframe)` of the
source (the store object itself is not among the extracted sources; the
append-or-overwrite tail rule is `addCandleToSeries`, from §4.1). -/
def addCandle (s : Store) (c : Candle) (exchange symbol tf : String) : Store :=
  { s with candlesStorage :=
      alistUpdate s.candlesStorage (exchange, symbol, tf) (fun ser => addCandleToSeries ser c) [] }

/-- `selectors.get_position(exchange, symbol).current_price = x` of the
source: update the current price of the key's position (no-op when the
store holds no such position; the source would have failed earlier in that
case). -/
def setCurrentPrice (s : Store) (exchange symbol : String) (x : ℚ) : Store :=
  { s with positions :=
      s.positions.map (fun p =>
        if p.exchange_name = exchange ∧ p.symbol = symbol then
          { p with current_price := x }
        else p) }

end Store

/-- The `store.app` slice the extracted source uses: the run's starting
time and the append-only daily equity curve. -/
structure App where
  starting_time : Int
  dailyBalance : List ℚ
  deriving DecidableEq, Repr

/-- `_save_daily_portfolio_balance` (source lines 248-265): collect every
exchange's cash balance, then, per position, its mark-to-market value when
open, or — when the position is closed — `abs(qty * price)` of each still
active order of that route; append the sum to `store.app.daily_balance`. -/
def save_daily_portfolio_balance (store : Store) (app : App) : App :=
  let balances :=
    store.exchanges.map (·.balance)
      ++ store.positions.flatMap (fun pos =>
          if pos.is_open then [pos.value]
          else (store.get_orders pos.exchange_name pos.symbol).filterMap
            (fun o => if o.is_active then some |o.qty * o.price| else none))
  { app with dailyBalance := app.dailyBalance ++ [balances.sum] }

/-- The spec's own equity formula, written from its words (§4.5, §8.5):
the sum over all exchanges of `balance`, plus for each open position
`|qty| × current_price`, plus for each closed position the sum of
`|qty × price|` over that route's still-active orders.  Stated separately
from `save_daily_portfolio_balance` so the snapshot function can be proved
to refine it. -/
def equitySpec (store : Store) : ℚ :=
  (store.exchanges.map (·.balance)).sum
    + ((store.positions.filter (·.is_open)).map (fun p => |p.qty| * p.current_price)).sum
    + ((store.positions.filter (fun p => !p.is_open)).map (fun p =>
        (((store.get_orders p.exchange_name p.symbol).filter (·.is_active)).map
          (fun o => |o.qty * o.price|)).sum)).sum

/-! ## Matching engine (C4 of the spec, source `_simulate_price_change_effect`) -/

/-- Cash effect of a fill on one exchange account (Modelled from the spec,
§3 `ExchangeAccount`: "Balance changes only on fill, by `± qty × price −
fee`"). -/
def applyCashEffect (o : Order) (signed fee : ℚ) (e : Exchange) : Exchange :=
  if e.name = o.exchange then { e with balance := e.balance - signed * o.price - fee } else e

/-- Position effect of a fill, with the `Trade` records it emits
(Modelled from the spec, §4.5: buy adds and sell subtracts the signed
quantity; the entry price becomes the quantity-weighted average while the
sign does not change; when the position closes or its sign flips, a
`Trade` with realized PnL `(exit − entry) × |qty_closed| × direction −
fees` is emitted).  The spec's `Trade` carries the opening time, which
this slice of the state does not track; both trade times are the fill
time. -/
def fillPosition (o : Order) (signed fee : ℚ) (now : Int) (p : Position) :
    Position × List Trade :=
  if p.exchange_name = o.exchange ∧ p.symbol = o.symbol then
    let oldQ := p.qty
    let newQ := oldQ + signed
    if oldQ = 0 then
      ({ p with qty := newQ, entry_price := o.price }, [])
    else if (0 < oldQ ∧ 0 < newQ) ∨ (oldQ < 0 ∧ newQ < 0) then
      let wavg := (|oldQ| * p.entry_price + |signed| * o.price) / (|oldQ| + |signed|)
      ({ p with qty := newQ, entry_price := wavg }, [])
    else if newQ = 0 then
      ({ p with qty := 0, entry_price := 0 },
       [⟨o.exchange, o.symbol, decide (0 < oldQ), now, now, p.entry_price, o.price, |oldQ|,
         (o.price - p.entry_price) * |oldQ| * (if 0 < oldQ then 1 else -1) - fee⟩])
    else
      ({ p with qty := newQ, entry_price := o.price },
       [⟨o.exchange, o.symbol, decide (0 < oldQ), now, now, p.entry_price, o.price, |oldQ|,
         (o.price - p.entry_price) * |oldQ| * (if 0 < oldQ then 1 else -1) - fee⟩])
  else (p, [])

/-- Ledger effect of executing an order (Modelled from the spec, §4.5
"Position & Balance Ledger": fee = fee_rate × |qty| × price at the order's
exchange; cash and position updates as above). -/
def fillOrderLedger (o : Order) (store : Store) : Store :=
  let signed : ℚ := if o.side = Side.buy then o.qty else -o.qty
  let feeRate : ℚ := ((store.exchanges.find? (fun e => e.name = o.exchange)).map (·.fee_rate)).getD 0
  let fee : ℚ := feeRate * |o.qty| * o.price
  let pts := store.positions.map (fillPosition o signed fee store.time)
  { store with
    exchanges := store.exchanges.map (applyCashEffect o signed fee),
    positions := pts.map (·.1),
    trades := store.trades ++ pts.flatMap (·.2) }

/-- Transition the first order carrying the given id to `executed`. -/
def markExecutedById (i : Nat) : List Order → List Order
  | [] => []
  | o :: rest =>
    if o.id = i then o.withStatus OrderStatus.executed :: rest
    else o :: markExecutedById i rest

/-- Modelled from the spec: `order.execute()` (§4.3, §4.4 step 4) —
transition the order to `executed` in its book, apply the ledger effect,
and push the orders created by the strategy's fill callback at the end of
the live order list (where the matching loop's next iteration can see
them). -/
def executeOrder (o : Order) (store : Store) : Store :=
  let store := store.updateOrders o.exchange o.symbol
      (fun l => markExecutedById o.id l ++ o.spawn)
  fillOrderLedger o store

/-- The for-loop of `_simulate_price_change_effect` (source lines
278-303): scan the live order list in insertion order and return the
first active order whose price lies inside the current temp candle.  The
source's `executed_order` flag bookkeeping reduces to exactly this: a
non-active last order resets the flag before `continue`, an active last
order always reaches the inclusion test, so after the for-loop the flag is
`True` iff such an order was found (and executed, followed by `break`). -/
def findFirstActiveMatch (orders : List Order) (temp : Candle) : Option Order :=
  match orders with
  | [] => none
  | o :: rest =>
    if o.is_active && candle_includes_price temp o.price then some o
    else findFirstActiveMatch rest temp

/-- The `while True` loop of `_simulate_price_change_effect` (source lines
274-314) on explicit fuel: read the live order list, and either exit —
writing the real candle over any split piece of this minute and marking
the position at the real close — or split the temp candle at the first
matching order's price, store the piece, mark the position at the piece's
close (`storable_temp_candle[2]`), execute the order, and continue with
the remainder.  Fuel 0 is unreachable for the fuel chosen by the wrapper
(each iteration that does not exit executes one active order, strictly
decreasing the book's order-tree measure). -/
def spceLoop (fuel : Nat) (real_candle : Candle) (exchange symbol : String)
    (temp : Candle) (store : Store) : Store :=
  match fuel with
  | 0 => store
  | fuel + 1 =>
    match findFirstActiveMatch (store.get_orders exchange symbol) temp with
    | none =>
      -- add/update the real_candle to the store so we can move on
      let store := store.addCandle real_candle exchange symbol "1m"
      store.setCurrentPrice exchange symbol real_candle.close
    | some o =>
      let pieces := split_candle temp o.price
      let store := store.addCandle pieces.1 exchange symbol "1m"
      let store := store.setCurrentPrice exchange symbol pieces.1.close
      let store := executeOrder o store
      spceLoop fuel real_candle exchange symbol pieces.2 store

/-- `_simulate_price_change_effect(real_candle, exchange, symbol)` (source
lines 268-314).  The source fetches the live order list once before the
loop; because `get_orders` returns the book's own list, every iteration
observes the current orders, which the fuel-based loop models by reading
`store.get_orders` at each iteration. -/
def simulate_price_change_effect (real_candle : Candle) (exchange symbol : String)
    (store : Store) : Store :=
  spceLoop (Order.measure.measureList (store.get_orders exchange symbol) + 1)
    real_candle exchange symbol real_candle store

/-- Modelled from the spec: `execute_pending_market_orders()` (§4.3) —
scan all orders in insertion order and execute every order with
`type = market` and `status = active`. -/
def execute_pending_market_orders (store : Store) : Store :=
  let pending := (store.ordersStorage.flatMap (·.2)).filter
      (fun o => decide (o.type = OrderType.market) && o.is_active)
  pending.foldl (fun s o => executeOrder o s) store

/-! ## Simulation driver (source `simulator`, lines 140-245) -/

/-- A trading route (§3): exchange × symbol × timeframe × strategy, plus
the optional DNA string (`""` plays Python's falsy `''`/`None`). -/
structure Route where
  exchange : String
  symbol : String
  timeframe : String
  strategy_name : String
  dna : String
  deriving DecidableEq, Repr

/-- The slice of the global `config`/`router` singletons the extracted
source reads: the route table, the considered timeframes, the first
trading exchange and symbol (used to pick the reference candle set), and
the considered (exchange, symbol) universe used by the loader. -/
structure Config where
  routes : List Route
  considering_timeframes : List String
  trading_exchange : String
  trading_symbol : String
  considering_exchanges : List String
  considering_symbols : List String
  deriving Repr

/-- Decoded hyperparameters (a structured mapping, per the glossary). -/
abbrev HP := List (String × Int)

/-- The attributes the host assigns on a freshly constructed strategy
(source lines 156-167): `name, exchange, symbol, timeframe`, and the
injected hyperparameters (absent when none were decoded or passed). -/
structure StrategyInst where
  name : String
  exchange : String
  symbol : String
  timeframe : String
  hp : Option HP
  deriving DecidableEq, Repr

/-- The strategy callbacks (`_init_objects`, `_execute`, `_terminate`) are
user code outside the engine; they interact with the system only through
the store (reading candles and positions, submitting orders), so they are
modelled as arbitrary store transformers attached per route. -/
structure Behaviors where
  init_objects : Route → Store → Store
  execute : Route → Store → Store
  terminate : Route → Store → Store

/-- One entry of the `candles` dict passed to `simulator`:
`{'exchange': ..., 'symbol': ..., 'candles': np.array}` keyed by
`jh.key(exchange, symbol)`. -/
structure CandleSet where
  exchange : String
  symbol : String
  candles : List Candle
  deriving Repr

/-- `jh.key` / the `'{}-{}'.format(exchange, symbol)` key strings of the
source. -/
def jhKey (exchange symbol : String) : String := exchange ++ "-" ++ symbol

/-- Dictionary lookup `candles[key]`. -/
def lookupCandleSet (sets : List CandleSet) (key : String) : Option CandleSet :=
  sets.find? (fun cs => jhKey cs.exchange cs.symbol = key)

/-- The strategy-initialization loop of `simulator` (source lines
149-169): per route, when the route carries a DNA string and no
hyperparameters are set yet, decode it (the strategy class schema and
`jh.dna_to_hp` are abstracted as the `dna_to_hp` argument, keyed by the
strategy name); construct the strategy instance with its host-assigned
attributes, run its `_init_objects` hook, and inject the current
hyperparameters when present (the position↔strategy back-reference
carries no data this model tracks). -/
def initStrategiesLoop (dna_to_hp : String → String → HP) (beh : Behaviors) :
    List Route → Option HP → Store → List StrategyInst × Option HP × Store
  | [], hp, store => ([], hp, store)
  | r :: rest, hp, store =>
    let hp := if r.dna ≠ "" ∧ hp = none then some (dna_to_hp r.strategy_name r.dna) else hp
    let inst : StrategyInst := ⟨r.strategy_name, r.exchange, r.symbol, r.timeframe, hp⟩
    let store := beh.init_objects r store
    let tail := initStrategiesLoop dna_to_hp beh rest hp store
    (inst :: tail.1, tail.2.1, tail.2.2)

/-- One timeframe of the higher-timeframe generation block inside the
simulator's minute loop (source lines 194-208): nothing for `1m`;
otherwise, when `(i+1) mod count == 0`, aggregate the trailing 1m-candle
slice `[(i - (count - 1)) : (i + 1)]` and store the generated candle under
the timeframe.  (The source also computes `until = count - ((i+1) %
count)`, which it never uses.) -/
def generateHTFStep (cset : CandleSet) (i : Nat) (store : Store) (tf : String) : Store :=
  if tf = "1m" then store
  else
    let count := timeframe_to_one_minutes tf
    if (i + 1) % count = 0 then
      let window := (cset.candles.drop (i - (count - 1))).take ((i + 1) - (i - (count - 1)))
      store.addCandle (generate_candle_from_one_minutes tf window) cset.exchange cset.symbol tf
    else store

/-- One route of the strategy-dispatch block inside the simulator's
minute loop (source lines 214-225): a `1m` route executes every minute;
any other route executes when `(i + 1) mod count == 0`. -/
def executeRouteStep (beh : Behaviors) (i : Nat) (store : Store) (r : Route) : Store :=
  let count := timeframe_to_one_minutes r.timeframe
  if r.timeframe = "1m" then beh.execute r store
  else if (i + 1) % count = 0 then beh.execute r store
  else store

/-- Per-candle-set work inside the minute loop (source lines 180-208):
append the minute's 1m candle, run the matching engine on it, then the
higher-timeframe generation block over the considered timeframes. -/
def addAndMatchSet (cfg : Config) (cset : CandleSet) (i : Nat) (store : Store) : Store :=
  let short_candle := cset.candles.getD i dummyCandle
  let store := store.addCandle short_candle cset.exchange cset.symbol "1m"
  let store := simulate_price_change_effect short_candle cset.exchange cset.symbol store
  cfg.considering_timeframes.foldl (generateHTFStep cset i) store

/-- One iteration (index `i`) of the simulator's minute loop (source
lines 175-231): set the clock to end-of-minute, run the candle/matching
work for every candle set, dispatch the routes' strategies, execute
pending MARKET orders, and append a daily-balance snapshot when
`i != 0 and i % 1440 == 0`. -/
def simLoopBody (cfg : Config) (beh : Behaviors) (candleSets : List CandleSet)
    (first_candles_set : List Candle) (i : Nat) (sa : Store × App) : Store × App :=
  let store := { sa.1 with time := (first_candles_set.getD i dummyCandle).timestamp + 60000 }
  let store := candleSets.foldl (fun store cset => addAndMatchSet cfg cset i store) store
  let store := cfg.routes.foldl (executeRouteStep beh i) store
  let store := execute_pending_market_orders store
  if i ≠ 0 ∧ i % 1440 = 0 then (store, save_daily_portfolio_balance store sa.2) else (store, sa.2)

/-- What `simulator` leaves behind: the final store and app state, the
constructed strategy instances, the final hyperparameters, and the
printed execution duration (the run's only use of the wall clock). -/
structure SimOutput where
  store : Store
  app : App
  strategies : List StrategyInst
  hpFinal : Option HP
  duration : Int
  deriving Repr

/-- `simulator(candles, hyper_parameters=None)` (source lines 140-245):
pick the reference candle set of the first trading exchange/symbol,
record the starting time, initialize the strategies (decoding DNA when
present), append the initial daily-balance snapshot, run the minute loop
over the reference length, call every strategy's `_terminate`, and append
the final snapshot.  `wallClockBegin`/`wallClockEnd` model the two
`time.time()` reads, used only for the printed duration. -/
def simulator (cfg : Config) (beh : Behaviors) (dna_to_hp : String → String → HP)
    (candleSets : List CandleSet) (hyper_parameters : Option HP)
    (store0 : Store) (app0 : App) (wallClockBegin wallClockEnd : Int) : SimOutput :=
  let key := jhKey cfg.trading_exchange cfg.trading_symbol
  let first_candles_set := ((lookupCandleSet candleSets key).map (·.candles)).getD []
  let length := first_candles_set.length
  let app := { app0 with starting_time := (first_candles_set.getD 0 dummyCandle).timestamp }
  let istate := initStrategiesLoop dna_to_hp beh cfg.routes hyper_parameters store0
  let app := save_daily_portfolio_balance istate.2.2 app
  let sa := (List.range length).foldl
    (fun sa i => simLoopBody cfg beh candleSets first_candles_set i sa) (istate.2.2, app)
  let store := cfg.routes.foldl (fun s r => beh.terminate r s) sa.1
  let app := save_daily_portfolio_balance store sa.2
  { store := store, app := app, strategies := istate.1, hpFinal := istate.2.1,
    duration := wallClockEnd - wallClockBegin }

/-! ## Candle loading and run entry point (source `run`, `_load_candles`) -/

/-- The error kinds the embedded entry point can surface (the source
raises `ValueError` for bad date ranges and
`jesse.exceptions.CandleNotFoundInDatabase` for both candle-contract
violations; route validation is external). -/
inductive BacktestError where
  | valueError (msg : String)
  | candleNotFoundInDatabase (msg : String)
  | routeValidationError (msg : String)
  deriving DecidableEq, Repr

/-- Modelled from the spec: `validate_routes` (§7: input validation of
routes fails fast before simulation) — the minimal check that the route
table is non-empty.  (`jesse.services.validators.validate_routes` is not
among the extracted sources.) -/
def validate_routes (routes : List Route) : Except BacktestError Unit :=
  if routes.isEmpty then .error (.routeValidationError "no routes") else .ok ()

/-- The per-(exchange, symbol) fetch-and-validate loop of `_load_candles`
(source lines 97-135), with the database fetch abstracted as `db` (the
cache layer memoizes the same tuples and is omitted): a pair raises
`CandleNotFoundInDatabase` when the fetched sequence is empty, does not
end at `finish_date` or does not start at `start_date`; and the
missing-candles variant when its count is not `(finish_date −
start_date)/60_000 + 1` (a float division in the source; exact rational
division here). -/
def loadPairs (db : String → String → List Candle) (start_date finish_date : Int) :
    List (String × String) → Except BacktestError (List CandleSet)
  | [] => .ok []
  | (exchange, symbol) :: rest =>
    let candles_tuple := db exchange symbol
    let required_candles_count : ℚ := ((finish_date - start_date : Int) : ℚ) / 60000
    if candles_tuple.length = 0
        ∨ candles_tuple.getLast?.map (·.timestamp) ≠ some finish_date
        ∨ candles_tuple.head?.map (·.timestamp) ≠ some start_date then
      .error (.candleNotFoundInDatabase ("Not enough candles for " ++ symbol))
    else if (candles_tuple.length : ℚ) ≠ required_candles_count + 1 then
      .error (.candleNotFoundInDatabase "There are missing candles in the requested range")
    else
      match loadPairs db start_date finish_date rest with
      | .error e => .error e
      | .ok sets => .ok (⟨exchange, symbol, candles_tuple⟩ :: sets)

/-- `_load_candles(start_date_str, finish_date_str)` (source lines
76-137), with the date strings already converted to UTC milliseconds and
`now` the current wall-clock milliseconds: validate the date range
(`finish_date` is the exclusive end minus one minute), then fetch and
validate candles for every considered (exchange, symbol) pair.  (The
`required_candles` warm-up injection and the cache write do not affect
the returned map and are omitted.) -/
def load_candles (db : String → String → List Candle) (cfg : Config)
    (start_ms finish_ms0 now : Int) : Except BacktestError (List CandleSet) :=
  let start_date := start_ms
  let finish_date := finish_ms0 - 60000
  if start_date = finish_date then
    .error (.valueError "start_date and finish_date cannot be the same.")
  else if start_date > finish_date then
    .error (.valueError "start_date cannot be bigger than finish_date.")
  else if finish_date > now then
    .error (.valueError "Cant backtest the future!")
  else
    loadPairs db start_date finish_date
      (cfg.considering_exchanges.flatMap
        (fun ex => cfg.considering_symbols.map (fun sym => (ex, sym))))

/-- `run(start_date, finish_date, candles=None, ...)` (source lines
26-73), restricted to its simulation-relevant control flow: validate the
routes, load candles only when none were passed in (`_load_candles` and
all its checks are skipped otherwise), then run the simulator (the source
calls `simulator(candles)`, leaving `hyper_parameters=None`).  The
reporting and chart side effects return no data and are omitted. -/
def run (cfg : Config) (beh : Behaviors) (dna_to_hp : String → String → HP)
    (db : String → String → List Candle) (start_ms finish_ms0 now : Int)
    (candles : Option (List CandleSet)) (store0 : Store) (app0 : App)
    (wallClockBegin wallClockEnd : Int) : Except BacktestError SimOutput :=
  match validate_routes cfg.routes with
  | .error e => .error e
  | .ok _ =>
    match candles with
    | some cs =>
      .ok (simulator cfg beh dna_to_hp cs none store0 app0 wallClockBegin wallClockEnd)
    | none =>
      match load_candles db cfg start_ms finish_ms0 now with
      | .error e => .error e
      | .ok cs =>
        .ok (simulator cfg beh dna_to_hp cs none store0 app0 wallClockBegin wallClockEnd)

/-! ## Spec-side predicates used to state the claims -/

/-- The spec's aggregation contract for an emitted higher-timeframe candle
`g` over a window `w` of 1m candles (§4.2): open of the first, close of
the last, max of the highs, min of the lows, sum of the volumes,
timestamp of the first. -/
def AggregatesWindow (g : Candle) (w : List Candle) : Prop :=
  (∀ first, w.head? = some first →
      g.timestamp = first.timestamp ∧ g.openP = first.openP)
  ∧ (∀ last, w.getLast? = some last → g.close = last.close)
  ∧ (w.map Candle.high).max? = some g.high
  ∧ (w.map Candle.low).min? = some g.low
  ∧ g.volume = (w.map Candle.volume).sum

/-- The loaded-candle contract of the spec (§6 candle loader): the
sequence starts at `start_date`, ends at `finish_date`, and counts
`(finish_date − start_date)/60_000 + 1` rows.  `ViolatesContract` is its
negation, split as the claim states it. -/
def ViolatesContract (cs : List Candle) (start_date finish_date : Int) : Prop :=
  cs.head?.map (·.timestamp) ≠ some start_date
  ∨ cs.getLast?.map (·.timestamp) ≠ some finish_date
  ∨ (cs.length : ℚ) ≠ ((finish_date - start_date : Int) : ℚ) / 60000 + 1

/-- Number of minute-loop indices below `n` at which the simulator
appends a daily snapshot (`i != 0 and i % 1440 == 0`). -/
def dailySnapshotCount : Nat → Nat
  | 0 => 0
  | n + 1 => dailySnapshotCount n + (if n ≠ 0 ∧ n % 1440 = 0 then 1 else 0)

/-- A store whose order book is empty everywhere, whose positions are all
closed, and whose exchange accounts equal `E`: the run-long invariant of
a backtest in which no strategy ever acts. -/
def QuietStore (E : List Exchange) (s : Store) : Prop :=
  s.exchanges = E ∧ (∀ e ∈ s.ordersStorage, e.2 = []) ∧ (∀ p ∈ s.positions, p.qty = 0)
  ∧ s.trades = []

/-! ## Concrete fixtures for the scenario theorems and witnesses -/

/-- An empty strategy: every callback leaves the store unchanged. -/
def behId : Behaviors := ⟨fun _ s => s, fun _ s => s, fun _ s => s⟩

/-- Marker trade record used by `behMark` to observe dispatches. -/
def markTrade : Trade := ⟨"mk", "mk", true, 0, 0, 0, 0, 0, 0⟩

/-- A strategy whose `execute` appends one marker trade record: the trade
count of the resulting store counts the host's `execute()` dispatches. -/
def behMark : Behaviors :=
  ⟨fun _ s => s, fun _ s => { s with trades := s.trades ++ [markTrade] }, fun _ s => s⟩

/-- Concrete DNA decoder used by witnesses (tags the strategy name and the
DNA length). -/
def dnaStub (name dna : String) : HP := [(name, (dna.length : Int))]

/-- A store with no accounts, no positions, no orders and no candles. -/
def emptyStore : Store := ⟨[], [], [], [], [], 0⟩

/-- Candle used by the C2 witness: closed interval `[9, 13]`. -/
def candW : Candle := ⟨0, 10, 12, 13, 9, 1⟩

/-- Store used by the C2 witness: one active order priced outside the
candle and one already-executed order priced inside it — no active order
matches. -/
def storeW : Store :=
  ⟨[⟨"ex", 1000, 0⟩], [⟨"ex", "sym", 0, 0, 0⟩],
   [(("ex", "sym"),
     [Order.mk 7 "ex" "sym" Side.sell OrderType.limit 1 20 OrderStatus.active [],
      Order.mk 8 "ex" "sym" Side.buy OrderType.limit 1 10 OrderStatus.executed []])],
   [(("ex", "sym", "1m"), [candW])], [], 60000⟩

/-- Sell-limit order at 108, created only by `orderA`'s fill callback. -/
def orderB : Order := Order.mk 2 "ex" "sym" Side.sell OrderType.limit 1 108 OrderStatus.active []

/-- Buy-limit order at 98 whose fill callback submits `orderB`. -/
def orderA : Order := Order.mk 1 "ex" "sym" Side.buy OrderType.limit 1 98 OrderStatus.active [orderB]

/-- The S2/S3 candle of the spec: `(o=100, h=110, l=95, c=105)`. -/
def cand3 : Candle := ⟨0, 100, 105, 110, 95, 10⟩

/-- Initial store of the fill-callback scenario: only `orderA` is booked. -/
def store3 : Store :=
  ⟨[⟨"ex", 1000, 0⟩], [⟨"ex", "sym", 0, 0, 0⟩], [(("ex", "sym"), [orderA])],
   [(("ex", "sym", "1m"), [cand3])], [], 60000⟩

/-- 15 consecutive 1m candles with known OHLCV (scenario S4). -/
def cset15 : CandleSet :=
  ⟨"ex", "sym",
   (List.range 15).map (fun i =>
     ⟨60000 * (i : Int), (i : ℚ) + 10, (i : ℚ) + 11, (i : ℚ) + 13, (i : ℚ) + 9, 2⟩)⟩

/-- The 15-candle window `[0, 14]` the S4 aggregation ranges over. -/
def w15 : List Candle := (cset15.candles.drop (14 + 1 - 15)).take 15

/-- A 15m route (scenario S4). -/
def route15 : Route := ⟨"ex", "sym", "15m", "Strat", ""⟩

/-- A route without DNA. -/
def routePre : Route := ⟨"ex", "sym", "1m", "S0", ""⟩

/-- The first route carrying a DNA string. -/
def routeDna : Route := ⟨"ex", "sym2", "5m", "S1", "XY"⟩

/-- A later route carrying its own (different) DNA string. -/
def routePost : Route := ⟨"ex", "sym3", "15m", "S2", "ZZ"⟩

/-- One flat 1m candle at price 100. -/
def flatCandle (i : Nat) : Candle := ⟨60000 * (i : Int), 100, 100, 100, 100, 1⟩

/-- Exactly 1440 flat one-minute candles (scenario S1). -/
def flatCandles : List Candle := (List.range 1440).map flatCandle

/-- Configuration of the flat scenario: one 1m route, 1m timeframes
only. -/
def cfgFlat : Config :=
  ⟨[⟨"Sandbox", "BTC-USD", "1m", "Empty", ""⟩], ["1m"], "Sandbox", "BTC-USD",
   ["Sandbox"], ["BTC-USD"]⟩

/-- Starting store of the flat scenario: balance 1000, flat position, no
orders. -/
def storeFlat : Store :=
  ⟨[⟨"Sandbox", 1000, 0⟩], [⟨"Sandbox", "BTC-USD", 0, 0, 0⟩],
   [(("Sandbox", "BTC-USD"), [])], [], [], 0⟩

/-- The candle map of the flat scenario. -/
def flatSets : List CandleSet := [⟨"Sandbox", "BTC-USD", flatCandles⟩]

/-- The flat 1440-minute backtest: empty strategy, no trades (scenario
S1). -/
def flatRun : SimOutput :=
  simulator cfgFlat behId dnaStub flatSets none storeFlat ⟨0, []⟩ 0 0

/-- Loader fixture with a missing minute: timestamps 0, 120000, 180000
over a range demanding 4 rows (the 60000 row is missing). -/
def dbGap (_ex _sym : String) : List Candle :=
  [⟨0, 1, 1, 1, 1, 0⟩, ⟨120000, 1, 1, 1, 1, 0⟩, ⟨180000, 1, 1, 1, 1, 0⟩]

/-- Configuration used by the run-level witnesses: a single considered
pair. -/
def cfgW : Config :=
  ⟨[⟨"ex", "sym", "1m", "S", ""⟩], ["1m"], "ex", "sym", ["ex"], ["sym"]⟩

/-- Preloaded candle map used by the C10 witness. -/
def setsW : List CandleSet := [⟨"ex", "sym", [⟨0, 1, 1, 1, 1, 0⟩]⟩]

theorem sum_bind_eq_sum_map {α : Type} (l : List α) (f : α → List ℚ) :
    (l.flatMap f).sum = (l.map (fun a => (f a).sum)).sum := by
  induction l with
  | nil => rfl
  | cons a t ih => simp [List.flatMap_cons, List.sum_append, ih]

theorem sum_map_ite_split {α : Type} (l : List α) (c : α → Bool) (f g : α → ℚ) :
    (l.map (fun a => if c a then f a else g a)).sum
      = ((l.filter c).map f).sum + ((l.filter (fun a => !c a)).map g).sum := by
  induction l with
  | nil => simp
  | cons a t ih =>
    by_cases h : c a
    · simp [h, ih]; ring
    · simp [h, ih]; ring

theorem sum_filterMap_ite {α : Type} (l : List α) (c : α → Bool) (g : α → ℚ) :
    (l.filterMap (fun a => if c a then some (g a) else none)).sum
      = ((l.filter c).map g).sum := by
  induction l with
  | nil => rfl
  | cons a t ih =>
    by_cases h : c a
    · simp [List.filterMap_cons, h, ih]
    · simp [List.filterMap_cons, h, ih]

/-- C4: every daily-balance snapshot appended by
`save_daily_portfolio_balance` equals the sum over all exchanges of their
cash balance, plus `|qty| × current_price` for every open position, plus,
for every closed position, the sum of `|qty × price|` over that route's
still-active orders.  Every snapshot taken during a run goes through this
function (it is the only writer of `daily_balance`), so the identity holds
at every snapshot. -/
theorem save_daily_portfolio_balance_equity_identity (store : Store) (app : App) :
    (save_daily_portfolio_balance store app).dailyBalance
      = app.dailyBalance ++ [equitySpec store] := by
  have h1 : ∀ pos : Position,
      ((if pos.is_open then [pos.value]
        else (store.get_orders pos.exchange_name pos.symbol).filterMap
          (fun o => if o.is_active then some |o.qty * o.price| else none)) : List ℚ).sum
      = (if pos.is_open then |pos.qty| * pos.current_price
         else (((store.get_orders pos.exchange_name pos.symbol).filter (·.is_active)).map
            (fun o => |o.qty * o.price|)).sum) := by
    intro pos
    by_cases h : pos.is_open
    · simp [h, Position.value]
    · simp [h, sum_filterMap_ite]
  unfold save_daily_portfolio_balance equitySpec
  simp only [List.sum_append, sum_bind_eq_sum_map]
  congr 2
  rw [List.map_congr_left (fun pos _ => h1 pos), sum_map_ite_split]
  exact (add_assoc _ _ _).symm

theorem findFirstActiveMatch_eq_none (temp : Candle) (l : List Order)
    (h : ∀ o ∈ l, o.is_active = true → candle_includes_price temp o.price = false) :
    findFirstActiveMatch l temp = none := by
  induction l with
  | nil => rfl
  | cons o rest ih =>
    have hcond : (o.is_active && candle_includes_price temp o.price) = false := by
      cases ha : o.is_active
      · simp
      · simp [h o (by simp) ha]
    simp only [findFirstActiveMatch, hcond, Bool.false_eq_true, if_false]
    exact ih (fun o' ho' => h o' (by simp [ho']))

theorem spce_exit_of_no_match (real : Candle) (exchange symbol : String)
    (store : Store)
    (h : ∀ o ∈ store.get_orders exchange symbol,
        o.is_active = true → candle_includes_price real o.price = false) :
    simulate_price_change_effect real exchange symbol store
      = (store.addCandle real exchange symbol "1m").setCurrentPrice exchange symbol
          real.close := by
  unfold simulate_price_change_effect spceLoop
  rw [findFirstActiveMatch_eq_none real _ h]

/-- C2: for a 1m candle `R` arriving at the matching engine, when no order
is active or no active order's price lies inside the current temp
candle's closed interval `[low, high]` (here the loop entry, where the
temp candle is `R` itself), the engine appends `R` to the 1m series
(through the same-timestamp overwrite rule, replacing any split piece
written for this minute), sets the position's current price to `R.close`,
and exits the matching loop with no other effect. -/
theorem matching_exit_no_active_match (real : Candle) (exchange symbol : String)
    (store : Store)
    (h : ∀ o ∈ store.get_orders exchange symbol,
        o.is_active = true → candle_includes_price real o.price = false) :
    simulate_price_change_effect real exchange symbol store
      = (store.addCandle real exchange symbol "1m").setCurrentPrice exchange symbol
          real.close :=
  spce_exit_of_no_match real exchange symbol store h

theorem matching_exit_no_active_match_witness :
    (∀ o ∈ storeW.get_orders "ex" "sym",
        o.is_active = true → candle_includes_price candW o.price = false) ∧
    simulate_price_change_effect candW "ex" "sym" storeW
      = (storeW.addCandle candW "ex" "sym" "1m").setCurrentPrice "ex" "sym" candW.close :=
  ⟨by decide, matching_exit_no_active_match candW "ex" "sym" storeW (by decide)⟩

/-- C3: each iteration of the matching loop observes the live order list
(the source's single pre-loop `get_orders` hands back the book's own
list), so an order created by a fill callback while the current minute is
being processed is visible on the next iteration's snapshot and can be
matched against the remainder candle within the same minute: `orderB` is
absent from the initial book, is submitted by `orderA`'s fill callback,
and both orders finish this single engine call executed. -/
theorem matching_sees_fill_callback_orders :
    ((store3.get_orders "ex" "sym").map (fun o => (o.id, o.status))
       = [(1, OrderStatus.active)])
    ∧ (((simulate_price_change_effect cand3 "ex" "sym" store3).get_orders "ex" "sym").map
          (fun o => (o.id, o.status))
       = [(1, OrderStatus.executed), (2, OrderStatus.executed)]) := by
  constructor
  · decide
  · decide

/-- C6: the host invokes a route's strategy `execute()` exactly when
`(i + 1) mod minutes(timeframe) == 0` — the source's special 1m branch
coincides with the uniform condition because `minutes(1m) = 1`, so a 1m
route executes every minute — and a 15m route over 15 consecutive 1m
minutes executes exactly once, at `i = 14`. -/
theorem execute_cadence (beh : Behaviors) (i : Nat) (store : Store) (r : Route) :
    (executeRouteStep beh i store r
      = if (i + 1) % timeframe_to_one_minutes r.timeframe = 0
        then beh.execute r store else store)
    ∧ ((List.range 15).foldl (fun s j => executeRouteStep behMark j s route15)
        emptyStore).trades.length = 1
    ∧ (List.range 15).filter
        (fun j => decide (0 < (executeRouteStep behMark j emptyStore route15).trades.length))
        = [14] := by
  refine ⟨?_, by decide, by decide⟩
  by_cases h1m : r.timeframe = "1m"
  · simp [executeRouteStep, h1m, timeframe_to_one_minutes, Nat.mod_one]
  · simp [executeRouteStep, h1m]

/-- C8: the simulator is deterministic — it is a pure function of its
inputs, and the only environmental reads of the source (`time.time()`,
modelled by the wall-clock arguments) influence nothing beyond the
printed duration: two runs with identical candles, routes/behaviors and
hyper-parameters produce identical completed-trades lists and identical
daily-balance series. -/
theorem simulator_deterministic (cfg : Config) (beh : Behaviors)
    (d : String → String → HP) (candleSets : List CandleSet) (hp : Option HP)
    (store0 : Store) (app0 : App) (t1 t2 t1' t2' : Int) :
    (simulator cfg beh d candleSets hp store0 app0 t1 t2).app.dailyBalance
      = (simulator cfg beh d candleSets hp store0 app0 t1' t2').app.dailyBalance
    ∧ (simulator cfg beh d candleSets hp store0 app0 t1 t2).store.trades
      = (simulator cfg beh d candleSets hp store0 app0 t1' t2').store.trades :=
  ⟨rfl, rfl⟩

/-- C10: when `run` receives a preloaded candles map, `_load_candles` —
and with it every date check and every candle fetch — is skipped: the run
returns the simulator's output for any `start`/`finish`/`now`
combination, including equal dates, inverted ranges and future dates. -/
theorem run_preloaded_skips_validation (cfg : Config) (beh : Behaviors)
    (d : String → String → HP) (db : String → String → List Candle)
    (start_ms finish_ms0 now : Int) (cs : List CandleSet) (store0 : Store) (app0 : App)
    (w1 w2 : Int) (hroutes : validate_routes cfg.routes = .ok ()) :
    run cfg beh d db start_ms finish_ms0 now (some cs) store0 app0 w1 w2
      = .ok (simulator cfg beh d cs none store0 app0 w1 w2) := by
  unfold run
  rw [hroutes]

theorem run_preloaded_skips_validation_witness :
    validate_routes cfgW.routes = .ok () ∧
    run cfgW behId dnaStub dbGap 0 0 (-1) (some setsW) emptyStore ⟨0, []⟩ 0 0
      = .ok (simulator cfgW behId dnaStub setsW none emptyStore ⟨0, []⟩ 0 0) :=
  ⟨rfl, run_preloaded_skips_validation cfgW behId dnaStub dbGap 0 0 (-1) setsW
    emptyStore ⟨0, []⟩ 0 0 rfl⟩

theorem initStrategiesLoop_some (d : String → String → HP) (beh : Behaviors) (v : HP) :
    ∀ (routes : List Route) (store : Store),
      (initStrategiesLoop d beh routes (some v) store).1
        = routes.map (fun p =>
            (⟨p.strategy_name, p.exchange, p.symbol, p.timeframe, some v⟩ : StrategyInst)) := by
  intro routes
  induction routes with
  | nil => intro store; rfl
  | cons p rest ih =>
    intro store
    have hguard : ¬ (p.dna ≠ "" ∧ (some v : Option HP) = none) := by simp
    simp only [initStrategiesLoop, if_neg hguard, List.map_cons]
    rw [ih]

/-- C9: when `simulator` is called with `hyper_parameters=None` and some
route carries a DNA string, the mapping decoded from the first such
route's DNA is injected into the strategy of every route processed from
that point on — the DNA route itself and all later routes, even those
carrying their own DNA — while the routes before it keep no
hyperparameters. -/
theorem dna_injected_into_all_later_routes (d : String → String → HP) (beh : Behaviors)
    (store : Store) (pre post : List Route) (r : Route)
    (hpre : ∀ p ∈ pre, p.dna = "") (hr : r.dna ≠ "") :
    (initStrategiesLoop d beh (pre ++ r :: post) none store).1
      = pre.map (fun p =>
          (⟨p.strategy_name, p.exchange, p.symbol, p.timeframe, none⟩ : StrategyInst))
        ++ (r :: post).map (fun p =>
            (⟨p.strategy_name, p.exchange, p.symbol, p.timeframe,
              some (d r.strategy_name r.dna)⟩ : StrategyInst)) := by
  induction pre generalizing store with
  | nil =>
    rw [List.nil_append]
    simp only [initStrategiesLoop]
    have hif2 : (if r.dna ≠ "" ∧ True then some (d r.strategy_name r.dna) else none)
        = some (d r.strategy_name r.dna) := if_pos ⟨hr, trivial⟩
    rw [hif2, initStrategiesLoop_some]
    simp
  | cons p pre' ih =>
    have hpd : p.dna = "" := hpre p (List.mem_cons_self p pre')
    rw [List.cons_append]
    simp only [initStrategiesLoop]
    have hif2 : (if p.dna ≠ "" ∧ True then some (d p.strategy_name p.dna) else none)
        = (none : Option HP) := by simp [hpd]
    rw [hif2]
    rw [ih _ (fun q hq => hpre q (List.mem_cons_of_mem p hq))]
    simp

theorem dna_injected_into_all_later_routes_witness :
    (∀ p ∈ [routePre], p.dna = "") ∧ routeDna.dna ≠ "" ∧
    (initStrategiesLoop dnaStub behId ([routePre] ++ routeDna :: [routePost])
        none emptyStore).1
      = [routePre].map (fun p =>
          (⟨p.strategy_name, p.exchange, p.symbol, p.timeframe, none⟩ : StrategyInst))
        ++ (routeDna :: [routePost]).map (fun p =>
            (⟨p.strategy_name, p.exchange, p.symbol, p.timeframe,
              some (dnaStub routeDna.strategy_name routeDna.dna)⟩ : StrategyInst)) :=
  ⟨by decide, by decide,
   dna_injected_into_all_later_routes dnaStub behId emptyStore [routePre] [routePost]
     routeDna (by decide) (by decide)⟩

theorem getLast?_cons_getD {α : Type} (c : α) (cs : List α) :
    (c :: cs).getLast? = some (cs.getLast?.getD c) := by
  induction cs generalizing c with
  | nil => rfl
  | cons d ds ih =>
    rw [List.getLast?_cons_cons]
    simp [ih d]

/-- C5: for every supported timeframe other than 1m with minute count
`k`, the simulator's generation step emits a higher-timeframe candle
exactly when `(i + 1) mod k == 0`, and the emitted candle is the
aggregation of the 1m candles at indices `[i − k + 1, i]` (a window of
length `k`): open of the first, close of the last, max of highs, min of
lows, sum of volumes, timestamp of the first. -/
theorem htf_generation_cadence_and_aggregation (cset : CandleSet) (i : Nat) (store : Store)
    (tf : String) (k : Nat) (htf : tf ≠ "1m") (hk : timeframe_to_one_minutes tf = k)
    (hkpos : 0 < k) (hlen : i + 1 ≤ cset.candles.length) :
    (¬ (i + 1) % k = 0 → generateHTFStep cset i store tf = store)
    ∧ ((i + 1) % k = 0 →
        ((cset.candles.drop (i + 1 - k)).take k).length = k
        ∧ generateHTFStep cset i store tf
            = store.addCandle
                (generate_candle_from_one_minutes tf ((cset.candles.drop (i + 1 - k)).take k))
                cset.exchange cset.symbol tf
        ∧ AggregatesWindow
            (generate_candle_from_one_minutes tf ((cset.candles.drop (i + 1 - k)).take k))
            ((cset.candles.drop (i + 1 - k)).take k)) := by
  constructor
  · intro hmod
    unfold generateHTFStep
    rw [if_neg htf, hk, if_neg hmod]
  · intro hmod
    have hkle : k ≤ i + 1 := Nat.le_of_dvd (Nat.succ_pos i) (Nat.dvd_of_mod_eq_zero hmod)
    have hlenw : ((cset.candles.drop (i + 1 - k)).take k).length = k := by
      rw [List.length_take, List.length_drop]
      omega
    refine ⟨hlenw, ?_, ?_⟩
    · unfold generateHTFStep
      rw [if_neg htf, hk, if_pos hmod]
      have hslice : i - (k - 1) = i + 1 - k := by omega
      have hslice2 : (i + 1) - (i - (k - 1)) = k := by omega
      rw [hslice2, hslice]
    · obtain ⟨c, cs, hw⟩ : ∃ c cs, (cset.candles.drop (i + 1 - k)).take k = c :: cs := by
        cases hcase : (cset.candles.drop (i + 1 - k)).take k with
        | nil => rw [hcase] at hlenw; simp at hlenw; omega
        | cons c cs => exact ⟨c, cs, rfl⟩
      rw [hw]
      simp only [generate_candle_from_one_minutes]
      refine ⟨?_, ?_, ?_, ?_, ?_⟩
      · intro first hfirst
        rw [List.head?_cons, Option.some_inj] at hfirst
        subst hfirst
        exact ⟨rfl, rfl⟩
      · intro last hlast
        rw [getLast?_cons_getD, Option.some_inj] at hlast
        subst hlast
        rfl
      · show (c.high :: cs.map Candle.high).max? = _
        show some ((cs.map Candle.high).foldl max c.high) = _
        rw [List.foldl_map]
      · show (c.low :: cs.map Candle.low).min? = _
        show some ((cs.map Candle.low).foldl min c.low) = _
        rw [List.foldl_map]
      · rfl

theorem htf_generation_witness :
    w15.length = 15
    ∧ generateHTFStep cset15 14 emptyStore "15m"
        = emptyStore.addCandle (generate_candle_from_one_minutes "15m" w15)
            cset15.exchange cset15.symbol "15m"
    ∧ AggregatesWindow (generate_candle_from_one_minutes "15m" w15) w15 :=
  (htf_generation_cadence_and_aggregation cset15 14 emptyStore "15m" 15 (by decide) rfl
    (by decide) (by decide)).2 (by decide)

theorem loadPairs_error_of_violation (db : String → String → List Candle)
    (start_date finish_date : Int) :
    ∀ (pairs : List (String × String)) (ex sym : String),
      (ex, sym) ∈ pairs → ViolatesContract (db ex sym) start_date finish_date →
      ∃ msg, loadPairs db start_date finish_date pairs
        = .error (.candleNotFoundInDatabase msg) := by
  intro pairs
  induction pairs with
  | nil =>
    intro ex sym h hv
    simp at h
  | cons pr rest ih =>
    intro ex sym hmem hv
    obtain ⟨pex, psym⟩ := pr
    by_cases h1 : ((db pex psym).length = 0
        ∨ ¬(db pex psym).getLast?.map (fun c => c.timestamp) = some finish_date
        ∨ ¬(db pex psym).head?.map (fun c => c.timestamp) = some start_date)
    · refine ⟨"Not enough candles for " ++ psym, ?_⟩
      simp only [loadPairs]
      rw [if_pos h1]
    · by_cases h2 : ¬((db pex psym).length : ℚ)
          = ((finish_date - start_date : Int) : ℚ) / 60000 + 1
      · refine ⟨"There are missing candles in the requested range", ?_⟩
        simp only [loadPairs]
        rw [if_neg h1, if_pos h2]
      · rcases List.mem_cons.mp hmem with heq | hmem2
        · exfalso
          have hex : ex = pex := congrArg Prod.fst heq
          have hsym : sym = psym := congrArg Prod.snd heq
          subst hex
          subst hsym
          push_neg at h1 h2
          unfold ViolatesContract at hv
          rcases hv with d | d | d
          · exact d h1.2.2
          · exact d h1.2.1
          · exact d h2
        · obtain ⟨msg, hmsg⟩ := ih ex sym hmem2 hv
          have hn2 : ¬¬((db pex psym).length : ℚ)
              = ((finish_date - start_date : Int) : ℚ) / 60000 + 1 := not_not_intro (by
            by_contra hc
            exact h2 hc)
          refine ⟨msg, ?_⟩
          simp only [loadPairs]
          rw [if_neg h1, if_neg hn2, hmsg]

/-- C7: when the loaded 1m candle sequence of some considered
(exchange, symbol) pair violates the loader contract — its first
timestamp is not `start_ms`, or its last is not `finish_ms`, or its count
is not `(finish_ms − start_ms)/60_000 + 1` (a missing minute) — `run`
fails with the candle-validation error before any simulation occurs (the
result is an error, never a simulator output; the source raises
`CandleNotFoundInDatabase` for both violations, which the spec's error
taxonomy names `CandleGap`/`CandleMissing`). -/
theorem run_rejects_contract_violations (cfg : Config) (beh : Behaviors)
    (d : String → String → HP) (db : String → String → List Candle)
    (start_ms finish_ms0 now : Int) (store0 : Store) (app0 : App) (w1 w2 : Int)
    (ex sym : String)
    (hroutes : validate_routes cfg.routes = .ok ())
    (hd1 : ¬ start_ms = finish_ms0 - 60000)
    (hd2 : ¬ start_ms > finish_ms0 - 60000)
    (hd3 : ¬ finish_ms0 - 60000 > now)
    (hmem : (ex, sym) ∈ cfg.considering_exchanges.flatMap
        (fun e => cfg.considering_symbols.map (fun s => (e, s))))
    (hv : ViolatesContract (db ex sym) start_ms (finish_ms0 - 60000)) :
    ∃ msg, run cfg beh d db start_ms finish_ms0 now none store0 app0 w1 w2
      = .error (.candleNotFoundInDatabase msg) := by
  obtain ⟨msg, hmsg⟩ := loadPairs_error_of_violation db start_ms (finish_ms0 - 60000)
    (cfg.considering_exchanges.flatMap (fun e => cfg.considering_symbols.map (fun s => (e, s))))
    ex sym hmem hv
  refine ⟨msg, ?_⟩
  unfold run load_candles
  rw [hroutes, if_neg hd1, if_neg hd2, if_neg hd3, hmsg]

theorem run_rejects_contract_violations_witness :
    ∃ msg, run cfgW behId dnaStub dbGap 0 240000 1000000 none emptyStore ⟨0, []⟩ 0 0
      = .error (.candleNotFoundInDatabase msg) :=
  run_rejects_contract_violations cfgW behId dnaStub dbGap 0 240000 1000000
    emptyStore ⟨0, []⟩ 0 0 "ex" "sym" rfl (by decide) (by decide) (by decide) (by decide)
    (by
      unfold ViolatesContract dbGap
      right
      right
      norm_num)

theorem save_daily_length (store : Store) (app : App) :
    (save_daily_portfolio_balance store app).dailyBalance.length
      = app.dailyBalance.length + 1 := by
  simp [save_daily_portfolio_balance]

theorem simLoopBody_dailyBalance_length (cfg : Config) (beh : Behaviors)
    (candleSets : List CandleSet) (first : List Candle) (i : Nat) (sa : Store × App) :
    (simLoopBody cfg beh candleSets first i sa).2.dailyBalance.length
      = sa.2.dailyBalance.length + (if i ≠ 0 ∧ i % 1440 = 0 then 1 else 0) := by
  unfold simLoopBody
  by_cases h : i ≠ 0 ∧ i % 1440 = 0
  · simp only [if_pos h]
    exact save_daily_length _ _
  · simp only [if_neg h]
    omega

theorem simLoop_fold_dailyBalance_length (cfg : Config) (beh : Behaviors)
    (candleSets : List CandleSet) (first : List Candle) :
    ∀ (n : Nat) (sa : Store × App),
      ((List.range n).foldl (fun sa i => simLoopBody cfg beh candleSets first i sa)
        sa).2.dailyBalance.length
        = sa.2.dailyBalance.length + dailySnapshotCount n := by
  intro n
  induction n with
  | zero => intro sa; rfl
  | succ m ih =>
    intro sa
    rw [List.range_succ, List.foldl_append, List.foldl_cons, List.foldl_nil,
      simLoopBody_dailyBalance_length, ih]
    simp only [dailySnapshotCount]
    rw [Nat.add_assoc]

theorem dailySnapshotCount_eq (n : Nat) : dailySnapshotCount n = (n - 1) / 1440 := by
  induction n with
  | zero => rfl
  | succ m ih =>
    simp only [dailySnapshotCount]
    rw [ih]
    by_cases h : m ≠ 0 ∧ m % 1440 = 0
    · rw [if_pos h]
      omega
    · rw [if_neg h]
      omega

theorem simulator_dailyBalance_length (cfg : Config) (beh : Behaviors)
    (d : String → String → HP) (candleSets : List CandleSet) (hp : Option HP)
    (store0 : Store) (app0 : App) (w1 w2 : Int) (cs : CandleSet)
    (hkey : lookupCandleSet candleSets (jhKey cfg.trading_exchange cfg.trading_symbol)
      = some cs) :
    (simulator cfg beh d candleSets hp store0 app0 w1 w2).app.dailyBalance.length
      = app0.dailyBalance.length + ((cs.candles.length - 1) / 1440 + 2) := by
  simp only [simulator, hkey, Option.map_some', Option.getD_some]
  rw [save_daily_length, simLoop_fold_dailyBalance_length, save_daily_length,
    dailySnapshotCount_eq]
  dsimp only
  omega

theorem flatMap_eq_nil_of_forall {α β : Type} (l : List α) (f : α → List β)
    (h : ∀ a ∈ l, f a = []) : l.flatMap f = [] := by
  induction l with
  | nil => rfl
  | cons a rest ih =>
    rw [List.flatMap_cons, h a (List.mem_cons_self a rest),
      ih (fun x hx => h x (List.mem_cons_of_mem a hx))]
    rfl

theorem get_orders_quiet (E : List Exchange) (s : Store) (h : QuietStore E s)
    (ex sym : String) : s.get_orders ex sym = [] := by
  unfold Store.get_orders alistGet
  cases hf : s.ordersStorage.find? (fun e => e.1 = (ex, sym)) with
  | none => rfl
  | some e => simp [h.2.1 e (List.mem_of_find?_eq_some hf)]

theorem quiet_addCandle (E : List Exchange) (s : Store) (c : Candle)
    (ex sym tf : String) (h : QuietStore E s) :
    QuietStore E (s.addCandle c ex sym tf) := h

theorem quiet_time (E : List Exchange) (s : Store) (t : Int) (h : QuietStore E s) :
    QuietStore E { s with time := t } := h

theorem quiet_setCurrentPrice (E : List Exchange) (s : Store) (ex sym : String) (x : ℚ)
    (h : QuietStore E s) : QuietStore E (s.setCurrentPrice ex sym x) := by
  obtain ⟨h1, h2, h3, h4⟩ := h
  refine ⟨h1, h2, ?_, h4⟩
  intro p hp
  unfold Store.setCurrentPrice at hp
  obtain ⟨q, hq, rfl⟩ := List.mem_map.mp hp
  by_cases hc : q.exchange_name = ex ∧ q.symbol = sym
  · rw [if_pos hc]
    exact h3 q hq
  · rw [if_neg hc]
    exact h3 q hq

theorem spce_quiet (E : List Exchange) (real : Candle) (ex sym : String) (s : Store)
    (h : QuietStore E s) : QuietStore E (simulate_price_change_effect real ex sym s) := by
  rw [spce_exit_of_no_match real ex sym s (by
    rw [get_orders_quiet E s h ex sym]
    intro o ho
    simp at ho)]
  exact quiet_setCurrentPrice E _ ex sym real.close (quiet_addCandle E s real ex sym "1m" h)

theorem quiet_generateHTFStep (E : List Exchange) (cset : CandleSet) (i : Nat)
    (s : Store) (tf : String) (h : QuietStore E s) :
    QuietStore E (generateHTFStep cset i s tf) := by
  simp only [generateHTFStep]
  split
  · exact h
  · split
    · exact quiet_addCandle E s _ _ _ _ h
    · exact h

theorem quiet_foldl {β : Type} (E : List Exchange) (f : Store → β → Store)
    (hf : ∀ s b, QuietStore E s → QuietStore E (f s b)) :
    ∀ (l : List β) (s : Store), QuietStore E s → QuietStore E (l.foldl f s) := by
  intro l
  induction l with
  | nil => intro s h; exact h
  | cons b rest ih => intro s h; exact ih _ (hf s b h)

theorem quiet_addAndMatchSet (E : List Exchange) (cfg : Config) (cset : CandleSet)
    (i : Nat) (s : Store) (h : QuietStore E s) :
    QuietStore E (addAndMatchSet cfg cset i s) := by
  unfold addAndMatchSet
  exact quiet_foldl E (generateHTFStep cset i)
    (fun s tf hs => quiet_generateHTFStep E cset i s tf hs) _ _
    (spce_quiet E _ _ _ _ (quiet_addCandle E s _ _ _ _ h))

theorem executeRouteStep_behId (i : Nat) (s : Store) (r : Route) :
    executeRouteStep behId i s r = s := by
  simp [executeRouteStep, behId]

theorem routes_foldl_behId (i : Nat) (l : List Route) (s : Store) :
    l.foldl (executeRouteStep behId i) s = s := by
  induction l generalizing s with
  | nil => rfl
  | cons r rest ih =>
    rw [List.foldl_cons, executeRouteStep_behId]
    exact ih s

theorem terminate_foldl_behId (l : List Route) (s : Store) :
    l.foldl (fun s r => behId.terminate r s) s = s := by
  induction l generalizing s with
  | nil => rfl
  | cons r rest ih => exact ih s

theorem epmo_quiet_eq (E : List Exchange) (s : Store) (h : QuietStore E s) :
    execute_pending_market_orders s = s := by
  unfold execute_pending_market_orders
  rw [flatMap_eq_nil_of_forall s.ordersStorage (fun e => e.2) h.2.1]
  rfl

theorem save_daily_quiet (E : List Exchange) (s : Store) (app : App)
    (h : QuietStore E s) :
    (save_daily_portfolio_balance s app).dailyBalance
      = app.dailyBalance ++ [(E.map (·.balance)).sum] := by
  unfold save_daily_portfolio_balance
  have hpos : s.positions.flatMap (fun pos =>
      if pos.is_open then [pos.value]
      else (s.get_orders pos.exchange_name pos.symbol).filterMap
        (fun o => if o.is_active then some |o.qty * o.price| else none)) = [] := by
    apply flatMap_eq_nil_of_forall
    intro p hp
    have hq : p.qty = 0 := h.2.2.1 p hp
    have hopen : p.is_open = false := by simp [Position.is_open, hq]
    rw [hopen, get_orders_quiet E s h]
    rfl
  rw [hpos, h.1]
  simp

theorem simLoopBody_quiet (E : List Exchange) (cfg : Config)
    (candleSets : List CandleSet) (first : List Candle) (i : Nat) (sa : Store × App)
    (h : QuietStore E sa.1) (hc : ¬ (i ≠ 0 ∧ i % 1440 = 0)) :
    QuietStore E (simLoopBody cfg behId candleSets first i sa).1
    ∧ (simLoopBody cfg behId candleSets first i sa).2 = sa.2 := by
  simp only [simLoopBody, if_neg hc]
  have h0 : QuietStore E { sa.1 with time := (first.getD i dummyCandle).timestamp + 60000 } :=
    quiet_time E sa.1 _ h
  have h1 : QuietStore E (candleSets.foldl (fun store cset => addAndMatchSet cfg cset i store)
      { sa.1 with time := (first.getD i dummyCandle).timestamp + 60000 }) :=
    quiet_foldl E _ (fun s b hs => quiet_addAndMatchSet E cfg b i s hs) candleSets _ h0
  rw [routes_foldl_behId, epmo_quiet_eq E _ h1]
  exact ⟨h1, trivial⟩

theorem simLoop_fold_quiet (E : List Exchange) (cfg : Config)
    (candleSets : List CandleSet) (first : List Candle) :
    ∀ (n : Nat), n ≤ 1440 → ∀ (sa : Store × App), QuietStore E sa.1 →
      QuietStore E ((List.range n).foldl
          (fun sa i => simLoopBody cfg behId candleSets first i sa) sa).1
      ∧ ((List.range n).foldl
          (fun sa i => simLoopBody cfg behId candleSets first i sa) sa).2 = sa.2 := by
  intro n
  induction n with
  | zero => intro _ sa h; exact ⟨h, rfl⟩
  | succ m ih =>
    intro hm sa h
    rw [List.range_succ, List.foldl_append, List.foldl_cons, List.foldl_nil]
    have hrec := ih (by omega) sa h
    have hc : ¬ (m ≠ 0 ∧ m % 1440 = 0) := by omega
    have hbody := simLoopBody_quiet E cfg candleSets first m _ hrec.1 hc
    exact ⟨hbody.1, hbody.2.trans hrec.2⟩

theorem initStrategiesLoop_behId_store (d : String → String → HP) :
    ∀ (routes : List Route) (hp : Option HP) (s : Store),
      (initStrategiesLoop d behId routes hp s).2.2 = s := by
  intro routes
  induction routes with
  | nil => intro hp s; rfl
  | cons r rest ih =>
    intro hp s
    simp only [initStrategiesLoop]
    exact ih _ _

theorem simulator_quiet (E : List Exchange) (cfg : Config) (d : String → String → HP)
    (candleSets : List CandleSet) (store0 : Store) (app0 : App) (w1 w2 : Int)
    (hq : QuietStore E store0)
    (hn : ((((lookupCandleSet candleSets
        (jhKey cfg.trading_exchange cfg.trading_symbol)).map (·.candles)).getD
          []).length : Nat) ≤ 1440) :
    (simulator cfg behId d candleSets none store0 app0 w1 w2).app.dailyBalance
      = app0.dailyBalance ++ [(E.map (·.balance)).sum, (E.map (·.balance)).sum]
    ∧ (simulator cfg behId d candleSets none store0 app0 w1 w2).store.trades = [] := by
  simp only [simulator]
  rw [initStrategiesLoop_behId_store]
  obtain ⟨hq1, happ⟩ := simLoop_fold_quiet E cfg candleSets
    (((lookupCandleSet candleSets
      (jhKey cfg.trading_exchange cfg.trading_symbol)).map (·.candles)).getD [])
    ((((lookupCandleSet candleSets
      (jhKey cfg.trading_exchange cfg.trading_symbol)).map (·.candles)).getD []).length)
    hn
    (store0, save_daily_portfolio_balance store0
      { app0 with starting_time :=
          (((((lookupCandleSet candleSets
            (jhKey cfg.trading_exchange cfg.trading_symbol)).map (·.candles)).getD
              []).getD 0 dummyCandle)).timestamp })
    hq
  rw [terminate_foldl_behId, happ, save_daily_quiet E _ _ hq1, save_daily_quiet E _ _ hq]
  refine ⟨?_, hq1.2.2.2⟩
  dsimp only
  rw [List.append_assoc]
  rfl

set_option maxRecDepth 4000 in
theorem flatRun_facts :
    flatRun.app.dailyBalance = [1000, 1000] ∧ flatRun.store.trades = [] := by
  have hq0 : QuietStore [⟨"Sandbox", 1000, 0⟩] storeFlat := by
    refine ⟨rfl, ?_, ?_, rfl⟩
    · intro e he
      rw [show storeFlat.ordersStorage = [(("Sandbox", "BTC-USD"), [])] from rfl,
        List.mem_singleton] at he
      rw [he]
    · intro p hp
      rw [show storeFlat.positions = [⟨"Sandbox", "BTC-USD", 0, 0, 0⟩] from rfl,
        List.mem_singleton] at hp
      rw [hp]
  have hn : (((((lookupCandleSet flatSets
      (jhKey cfgFlat.trading_exchange cfgFlat.trading_symbol)).map (·.candles)).getD
        []).length : Nat)) ≤ 1440 := by
    have hl : (((lookupCandleSet flatSets
        (jhKey cfgFlat.trading_exchange cfgFlat.trading_symbol)).map (·.candles)).getD [])
        = flatCandles := rfl
    rw [hl]
    simp [flatCandles]
  have h := simulator_quiet [⟨"Sandbox", 1000, 0⟩] cfgFlat dnaStub flatSets storeFlat
    ⟨0, []⟩ 0 0 hq0 hn
  constructor
  · show (simulator cfgFlat behId dnaStub flatSets none storeFlat ⟨0, []⟩ 0 0).app.dailyBalance
      = [1000, 1000]
    rw [h.1]
    simp
  · exact h.2

/-- Counterexample to C1 as stated: a backtest over exactly 1440
one-minute candles with no trades produces a daily_balance of length 2,
not the claimed `ceil(1440/1440) + 2 = 3` — the snapshot guard
`i != 0 and i % 1440 == 0` fires at none of the loop indices `0..1439`,
leaving only the initial and final snapshots. -/
theorem daily_balance_len_counterexample :
    flatRun.store.trades = [] ∧ flatRun.app.dailyBalance.length ≠ 3 := by
  refine ⟨flatRun_facts.2, ?_⟩
  rw [flatRun_facts.1]
  decide

/-- C1 amended: for every backtest over N one-minute candles, the
daily-balance series has length `floor((N − 1)/1440) + 2` (one initial
snapshot, one per day boundary reached after the first minute, one final
snapshot); in particular a run over exactly 1440 candles with no trades
yields a daily_balance of length 2 with every entry equal to the starting
balance. -/
theorem daily_balance_cadence_amended :
    (∀ (cfg : Config) (beh : Behaviors) (d : String → String → HP)
      (candleSets : List CandleSet) (hp : Option HP) (store0 : Store) (app0 : App)
      (w1 w2 : Int) (cs : CandleSet),
      lookupCandleSet candleSets (jhKey cfg.trading_exchange cfg.trading_symbol)
        = some cs →
      (simulator cfg beh d candleSets hp store0 app0 w1 w2).app.dailyBalance.length
        = app0.dailyBalance.length + ((cs.candles.length - 1) / 1440 + 2))
    ∧ flatRun.app.dailyBalance = [1000, 1000]
    ∧ flatRun.store.trades = [] :=
  ⟨fun cfg beh d candleSets hp store0 app0 w1 w2 cs hkey =>
      simulator_dailyBalance_length cfg beh d candleSets hp store0 app0 w1 w2 cs hkey,
   flatRun_facts.1, flatRun_facts.2⟩

set_option maxRecDepth 4000 in
theorem daily_balance_cadence_amended_witness :
    (simulator cfgW behId dnaStub setsW none emptyStore ⟨0, []⟩ 0 0).app.dailyBalance.length
      = 2 := by
  have h := daily_balance_cadence_amended.1 cfgW behId dnaStub setsW none emptyStore
    ⟨0, []⟩ 0 0 ⟨"ex", "sym", [⟨0, 1, 1, 1, 1, 0⟩]⟩ rfl
  simpa using h

end Jesse
